import Mathlib

/-!
Verification development for the `codelens` editor extension
(`src/extension.ts`, full variant with `SelectedItemProvider`).

The extension turns a filesystem path into an ordered list of display rows
(`DirectoryItem`s).  The filesystem is modeled abstractly as a snapshot:
`statFn` maps a path to its stat result (`none` models a throwing
`fs.statSync`) and `readdir` maps a path to its listing (`none` models a
throwing `fs.readdirSync`).  All string manipulation is done on the
underlying character lists so that every definition evaluates by kernel
reduction.
-/

namespace CodeLens

/-- Result of a successful `fs.statSync` call.  `birthtime` and `mtime` hold
the locale-formatted display strings (`Date.toLocaleString()` is
locale-dependent, so the dates are carried as their rendered text). -/
structure Stats where
  isDir : Bool
  size : Nat
  mode : Nat
  birthtime : String
  mtime : String
deriving DecidableEq, Repr

/-- A snapshot of the filesystem at summarization time.  `statFn p = none`
models `fs.statSync(p)` throwing (missing path, permission denied, ...);
`readdir p = none` models `fs.readdirSync(p)` throwing. -/
structure FS where
  statFn : String → Option Stats
  readdir : String → Option (List String)

/-- Model of `path.join(dir, file)` for a directory and a child name: the
child names returned by `readdir` contain no separators, so the join is
plain concatenation with a slash. -/
def pathJoin (dir file : String) : String := dir ++ "/" ++ file

/-- Model of `fs.existsSync`: a path exists iff its stat succeeds. -/
def existsSync (fs : FS) (p : String) : Bool := (fs.statFn p).isSome

/-- Model of Node `path.basename` (POSIX): the part after the last slash,
ignoring trailing slashes; an all-slash path gives "/", the empty path "". -/
def basename (p : String) : String :=
  let cs := p.data
  let trimmed := (cs.reverse.dropWhile (fun c => c = '/')).reverse
  if trimmed.isEmpty then (if cs.isEmpty then "" else "/")
  else String.mk ((trimmed.reverse.takeWhile (fun c => c ≠ '/')).reverse)

/-- Model of Node `path.dirname` (POSIX): everything before the separator
that precedes the last non-slash component (trailing slashes ignored),
"." when there is no such separator and no root, "/" for rooted paths whose
only separator is the root itself, and "//" for the double-root case. -/
def dirname (p : String) : String :=
  let cs := p.data
  if cs.isEmpty then "."
  else
    let hasRoot := decide (cs.head? = some '/')
    let r := cs.reverse.dropWhile (fun c => c = '/')
    let r2 := r.dropWhile (fun c => c ≠ '/')
    if r2.length ≤ 1 then (if hasRoot then "/" else ".")
    else if hasRoot && decide (r2.length - 1 = 1) then "//"
    else String.mk ((r2.drop 1).reverse)

/-- Helper for `extname`: scans the reversed characters of a name,
accumulating the characters that follow the last dot.  Returns the
extension (dot included) or `none` when the name has no extension; a dot
that is the first character of the name (hidden files like ".bashrc")
yields no extension, matching Node. -/
def extCore (acc : List Char) : List Char → Option (List Char)
  | [] => none
  | c :: rest =>
    if c = '.' then (if rest.isEmpty then none else some ('.' :: acc))
    else extCore (c :: acc) rest

/-- Model of Node `path.extname` on a separator-free name (the code only
applies it to `readdir` entries and basenames): the substring from the last
dot to the end, "" when there is no dot, the dot is the leading character,
or the name is exactly "..". -/
def extname (s : String) : String :=
  if s = ".." then ""
  else
    match extCore [] s.data.reverse with
    | none => ""
    | some cs => String.mk cs

/-- Model of JS `String.prototype.toLowerCase`, character-wise (exact for
the ASCII extensions the code compares). -/
def toLowerCase (s : String) : String := String.mk (s.data.map Char.toLower)

/-- Model of JS `s.substring(1)`: drop the first character. -/
def substring1 (s : String) : String := String.mk (s.data.drop 1)

/-- Model of JS `s.startsWith(pre)`. -/
def jsStartsWith (s pre : String) : Bool := pre.data.isPrefixOf s.data

/-- Helper for `strContains`: does `pat` occur contiguously in the list? -/
def containsAux (pat : List Char) : List Char → Bool
  | [] => pat.isPrefixOf []
  | c :: rest => pat.isPrefixOf (c :: rest) || containsAux pat rest

/-- Model of JS `s.includes(pat)`. -/
def strContains (s pat : String) : Bool := containsAux pat.data s.data

/-- Model of `formatPath` (src/extension.ts:39-50): paths of length at most
40 are returned unchanged; longer paths keep the first and last
`40 / 2 - 3 = 17` characters around a middle "...".  JS indexes UTF-16
units and this model indexes characters; they agree on the BMP text the
extension displays. -/
def formatPath (filePath : String) : String :=
  if filePath.length ≤ 40 then filePath
  else
    String.mk (filePath.data.take 17) ++ "..." ++
      String.mk (filePath.data.drop (filePath.length - 17))

/-- Exact model of JS `(num / denom).toFixed(1)` for a power-of-two `denom`
and `num < 2^53`: the quotient is then exactly representable as a double,
and `toFixed` picks the integer `n` with `n / 10` closest to it, ties going
to the larger `n` — i.e. `n = ⌊(10 * num + denom / 2) / denom⌋`. -/
def toFixed1 (num denom : Nat) : String :=
  let n := (10 * num + denom / 2) / denom
  toString (n / 10) ++ "." ++ toString (n % 10)

/-- Model of `formatSize` (src/extension.ts:91-101). -/
def formatSize (bytes : Nat) : String :=
  if bytes < 1024 then toString bytes ++ " bytes"
  else if bytes < 1024 * 1024 then toFixed1 bytes 1024 ++ " KB"
  else if bytes < 1024 * 1024 * 1024 then toFixed1 bytes (1024 * 1024) ++ " MB"
  else toFixed1 bytes (1024 * 1024 * 1024) ++ " GB"

/-- Model of `(stats.mode & 0o777).toString(8)`: the mask keeps the low
9 bits, i.e. `mode % 512`, rendered in octal. -/
def octalString (n : Nat) : String := String.mk (Nat.toDigits 8 n)

/-- The counts object built by `countFileTypes`: a JS object with string
keys, modeled as an insertion-ordered association list (JS objects preserve
insertion order for the non-numeric keys used here, which is the order
`Object.entries` later observes). -/
abbrev Counts : Type := List (String × Nat)

/-- Model of `counts[k] = (counts[k] || 0) + 1` on a JS object: increment
the entry for `k`, appending a fresh entry at the end when absent. -/
def bump : Counts → String → Counts
  | [], k => [(k, 1)]
  | e :: rest, k => if e.1 = k then (e.1, e.2 + 1) :: rest else e :: bump rest k

/-- Reading `counts[k]` with JS semantics: 0 when absent (the code only
compares absent entries with `> 0`, where `undefined` behaves like 0). -/
def lookupCount : Counts → String → Nat
  | [], _ => 0
  | e :: rest, k => if e.1 = k then e.2 else lookupCount rest k

/-- The lower-cased extension key a child name is bucketed under. -/
def extKeyOf (file : String) : String := toLowerCase (extname file)

/-- One iteration of the `for` loop in `countFileTypes`
(src/extension.ts:61-82): a child whose stat throws is skipped; a directory
bumps "directories"; a file bumps "files" and then its lower-cased
extension key, or "no-extension" when it has none. -/
def countStep (fs : FS) (dir : String) (counts : Counts) (file : String) : Counts :=
  match fs.statFn (pathJoin dir file) with
  | none => counts
  | some stats =>
    if stats.isDir then bump counts "directories"
    else
      let counts1 := bump counts "files"
      let ext := extKeyOf file
      if ext ≠ "" then bump counts1 ext else bump counts1 "no-extension"

/-- Model of `countFileTypes` (src/extension.ts:53-88). -/
def countFileTypes (fs : FS) (directoryPath : String) : Counts :=
  match fs.readdir directoryPath with
  | none => [("error", 1)]
  | some files => files.foldl (countStep fs directoryPath) [("directories", 0), ("files", 0)]

/-- One iteration of the `for` loop in `calculateDirSize`
(src/extension.ts:109-124): the source's directory branch adds the entry's
own `stats.size`, exactly as the file branch does; a child whose stat
throws is skipped. -/
def sizeStep (fs : FS) (dirPath : String) (totalSize : Nat) (file : String) : Nat :=
  match fs.statFn (pathJoin dirPath file) with
  | none => totalSize
  | some stats =>
    if stats.isDir then totalSize + stats.size else totalSize + stats.size

/-- Model of `calculateDirSize` (src/extension.ts:104-130): sum of the stat
sizes of the immediate children; an unreadable listing yields 0. -/
def calculateDirSize (fs : FS) (dirPath : String) : Nat :=
  match fs.readdir dirPath with
  | none => 0
  | some files => files.foldl (sizeStep fs dirPath) 0

/-- The stat result of an immediate child, as `countFileTypes` and
`calculateDirSize` obtain it. -/
def childStat (fs : FS) (dir file : String) : Option Stats :=
  fs.statFn (pathJoin dir file)

/-- A child whose stat succeeds and reports a directory. -/
def isDirChild (fs : FS) (dir f : String) : Bool :=
  match childStat fs dir f with
  | some s => s.isDir
  | none => false

/-- A child whose stat succeeds and reports a non-directory. -/
def isFileChild (fs : FS) (dir f : String) : Bool :=
  match childStat fs dir f with
  | some s => !s.isDir
  | none => false

/-- Whether the child `f` bumps the bucket `k` during one `countFileTypes`
iteration: children with failing stats bump nothing, directories bump
"directories", files bump "files" and their extension key (or
"no-extension"). -/
def contributes (fs : FS) (dir k f : String) : Bool :=
  match childStat fs dir f with
  | none => false
  | some st =>
    if st.isDir then decide (k = "directories")
    else if k = "files" then true
    else if extKeyOf f = "" then decide (k = "no-extension")
    else decide (k = extKeyOf f)

/-- The sentinel keys excluded from the "Common types" summary
(src/extension.ts:268). -/
def sentinelKeys : List String := ["directories", "files", "no-extension", "error"]

/-- The `Object.entries(counts).filter(...)` step: extension entries in
first-seen (insertion) order. -/
def extensionEntries (counts : Counts) : List (String × Nat) :=
  counts.filter (fun e => !(sentinelKeys.contains e.1))

/-- Insert an entry into a list that is sorted by descending count,
placing it after every entry with a greater-or-equal count. -/
def insertByCountDesc (x : String × Nat) : List (String × Nat) → List (String × Nat)
  | [] => [x]
  | y :: rest => if y.2 < x.2 then x :: y :: rest else y :: insertByCountDesc x rest

/-- Model of `.sort((a, b) => b[1] - a[1])`: JS `Array.prototype.sort` is
stable, so the result is the stable descending-by-count ordering, realized
here as a left-to-right stable insertion sort. -/
def sortByCountDesc (l : List (String × Nat)) : List (String × Nat) :=
  l.foldl (fun acc x => insertByCountDesc x acc) []

/-- The `.sort(...).slice(0, 3)` pipeline of src/extension.ts:267-270. -/
def topExtensions (counts : Counts) : List (String × Nat) :=
  (sortByCountDesc (extensionEntries counts)).take 3

/-- The `extensionSummary` string of src/extension.ts:273-275. -/
def extensionSummary (exts : List (String × Nat)) : String :=
  String.intercalate ", " (exts.map (fun e => substring1 e.1 ++ ": " ++ toString e.2))

/-- One display row.  Mirrors the `DirectoryItem` tree item: a label, the
tooltip (the full path when given), the description derived from the path,
and an optional context value.  The collapsible state is always `None` in
the source and is omitted. -/
structure DirectoryItem where
  label : String
  tooltip : Option String
  description : Option String
  contextValue : Option String
deriving DecidableEq, Repr

/-- The `DirectoryItem` constructor (src/extension.ts:8-36): tooltip is the
full path; the description is the formatted dirname of the full path unless
that dirname is ".". -/
def mkDirectoryItem (label : String) (fullPath : Option String)
    (contextValue : Option String) : DirectoryItem :=
  ⟨label, fullPath,
   fullPath.bind (fun fp =>
     let dirName := dirname fp
     if dirName ≠ "." then some (formatPath dirName) else none),
   contextValue⟩

/-- State of the `SelectedItemProvider`: the workspace root captured at
construction, the mutable current selection, and the number of change
notifications fired so far (the `_onDidChangeTreeData.fire()` side
effect). -/
structure SelectedItemProvider where
  workspaceRoot : Option String
  currentSelection : Option String
  fireCount : Nat
deriving DecidableEq, Repr

/-- Model of `SelectedItemProvider.refresh` (src/extension.ts:141-144):
overwrite the selection (clearing it when called without an argument) and
fire a change notification. -/
def refresh (p : SelectedItemProvider) (selection : Option String) : SelectedItemProvider :=
  ⟨p.workspaceRoot, selection, p.fireCount + 1⟩

/-- The two-state selection machine the spec describes. -/
inductive TrackerState where
  | noSelection : TrackerState
  | hasSelection : String → TrackerState
deriving DecidableEq, Repr

/-- The abstract state a provider is in. -/
def selectionState (p : SelectedItemProvider) : TrackerState :=
  match p.currentSelection with
  | none => TrackerState.noSelection
  | some q => TrackerState.hasSelection q

/-- The directory-only rows of `getChildren` (src/extension.ts:236-292):
listing failure is caught and replaced by a single error row; otherwise the
item count, the conditional subdirectory/file counts, and the conditional
top-3 extension summary. -/
def dirTypeRows (fs : FS) (selPath : String) : List DirectoryItem :=
  match fs.readdir selPath with
  | none => [mkDirectoryItem "Error reading directory contents" none none]
  | some files =>
    mkDirectoryItem ("Contains: " ++ toString files.length ++ " items") none none ::
    (let counts := countFileTypes fs selPath
     (if lookupCount counts "directories" > 0 then
        [mkDirectoryItem ("Subdirectories: " ++ toString (lookupCount counts "directories")) none none]
      else []) ++
     (if lookupCount counts "files" > 0 then
        [mkDirectoryItem ("Files: " ++ toString (lookupCount counts "files")) none none]
      else []) ++
     (let extensions := topExtensions counts
      if extensions.length > 0 then
        [mkDirectoryItem ("Common types: " ++ extensionSummary extensions) none none]
      else []))

/-- The rows produced for a held selection (src/extension.ts:160-302): stat
failure is caught and yields the single generic error row; otherwise the
identity, created, modified and permissions rows, followed by the
file-specific or directory-specific rows. -/
def selectionRows (fs : FS) (selPath : String) : List DirectoryItem :=
  match fs.statFn selPath with
  | none => [mkDirectoryItem "Error reading file information" none none]
  | some stats =>
    let itemName := basename selPath
    let itemType := if stats.isDir then "Directory" else "File"
    let contextValue := if stats.isDir then "directory" else "file"
    mkDirectoryItem (itemType ++ ": " ++ itemName) (some selPath) (some contextValue) ::
    mkDirectoryItem ("Created: " ++ stats.birthtime) none none ::
    mkDirectoryItem ("Modified: " ++ stats.mtime) none none ::
    mkDirectoryItem ("Permissions: " ++ octalString (stats.mode % 512)) none none ::
    (if !stats.isDir then
      mkDirectoryItem ("Size: " ++ formatSize stats.size) none none ::
      (let extension := extname itemName
       if extension ≠ "" then
         [mkDirectoryItem ("Type: " ++ substring1 extension) none none]
       else [])
    else
      mkDirectoryItem ("Size (approx): " ++ formatSize (calculateDirSize fs selPath)) none none ::
      dirTypeRows fs selPath)

/-- The rows produced for the workspace root when no selection is held
(src/extension.ts:305-348): the identity row, then — when the listing is
readable — the item count and the conditional subdirectory/file counts; a
listing failure is silently ignored. -/
def workspaceRows (fs : FS) (root : String) : List DirectoryItem :=
  mkDirectoryItem ("Workspace: " ++ basename root) (some root) (some "directory") ::
  (match fs.readdir root with
   | none => []
   | some files =>
     mkDirectoryItem ("Root contains: " ++ toString files.length ++ " items") none none ::
     (let counts := countFileTypes fs root
      (if lookupCount counts "directories" > 0 then
         [mkDirectoryItem ("Subdirectories: " ++ toString (lookupCount counts "directories")) none none]
       else []) ++
      (if lookupCount counts "files" > 0 then
         [mkDirectoryItem ("Files: " ++ toString (lookupCount counts "files")) none none]
       else [])))

/-- Model of `SelectedItemProvider.getChildren` (src/extension.ts:150-361).
Nested requests return no children; the root request branches on the
current selection and the workspace root.  The function is total: every
filesystem failure is converted into rows, never re-raised. -/
def getChildren (fs : FS) (p : SelectedItemProvider)
    (element : Option DirectoryItem) : List DirectoryItem :=
  match element with
  | some _ => []
  | none =>
    match p.currentSelection with
    | some sel => selectionRows fs sel
    | none =>
      match p.workspaceRoot with
      | some root => workspaceRows fs root
      | none => [mkDirectoryItem "No workspace or selection" none none]

/-- The path-likeness test of the clipboard heuristic
(src/extension.ts:405): non-empty text that starts with "/" or contains
":/". -/
def isPathLike (text : String) : Bool :=
  !text.data.isEmpty && (jsStartsWith text "/" || strContains text ":/")

/-- Model of the clipboard-heuristic callback body
(src/extension.ts:404-415): refresh the provider onto the clipboard text
exactly when the text is path-like and exists on disk, otherwise leave the
provider untouched.  On a POSIX host `vscode.Uri.file(text).fsPath` is
`text` itself and does not throw for such text, so the Uri round-trip is
modeled as the identity. -/
def clipboardHeuristic (fs : FS) (p : SelectedItemProvider) (text : String) :
    SelectedItemProvider :=
  if isPathLike text then
    (if existsSync fs text then refresh p (some text) else p)
  else p

/-- A concrete filesystem snapshot used to witness the theorems: a
directory "/d" with children {a.txt, b.txt, c.md, sub}, an existing file
"/tmp/foo", and a directory "/locked" whose listing is unreadable. -/
def exampleFS : FS :=
  ⟨fun p =>
    if p = "/d" then some ⟨true, 128, 493, "c0", "m0"⟩
    else if p = "/d/a.txt" then some ⟨false, 100, 420, "c1", "m1"⟩
    else if p = "/d/b.txt" then some ⟨false, 200, 420, "c2", "m2"⟩
    else if p = "/d/c.md" then some ⟨false, 50, 420, "c3", "m3"⟩
    else if p = "/d/sub" then some ⟨true, 96, 493, "c4", "m4"⟩
    else if p = "/tmp/foo" then some ⟨false, 1, 420, "c5", "m5"⟩
    else if p = "/locked" then some ⟨true, 64, 448, "c6", "m6"⟩
    else if p = "/e" then some ⟨true, 160, 493, "c7", "m7"⟩
    else if p = "/e/README" then some ⟨false, 10, 420, "c8", "m8"⟩
    else if p = "/e/x.txt" then some ⟨false, 20, 420, "c9", "m9"⟩
    else none,
   fun p =>
    if p = "/d" then some ["a.txt", "b.txt", "c.md", "sub"]
    else if p = "/d/sub" then some []
    else if p = "/e" then some ["README", "x.txt"]
    else none⟩

/-! ### Lemmas about the counts object -/

theorem lookupCount_bump_self (m : Counts) (k : String) :
    lookupCount (bump m k) k = lookupCount m k + 1 := by
  induction m with
  | nil => simp [bump, lookupCount]
  | cons e rest ih =>
    rcases e with ⟨a, v⟩
    by_cases he : a = k
    · subst he
      simp [bump, lookupCount]
    · simp [bump, lookupCount, he, ih]

theorem lookupCount_bump_ne (m : Counts) (k k' : String) (h : k' ≠ k) :
    lookupCount (bump m k) k' = lookupCount m k' := by
  induction m with
  | nil => simp [bump, lookupCount, Ne.symm h]
  | cons e rest ih =>
    rcases e with ⟨a, v⟩
    by_cases he : a = k
    · subst he
      simp [bump, lookupCount, Ne.symm h]
    · by_cases he2 : a = k'
      · simp [bump, lookupCount, he, he2, h]
      · simp [bump, lookupCount, he, he2, ih]

/-! ### The shape of extension keys -/

theorem extCore_shape (l : List Char) : ∀ (acc cs : List Char),
    extCore acc l = some cs → ∃ t, cs = '.' :: t := by
  induction l with
  | nil => intro acc cs h; simp [extCore] at h
  | cons c rest ih =>
    intro acc cs h
    by_cases hc : c = '.'
    · subst hc
      by_cases hr : rest.isEmpty
      · simp [extCore, hr] at h
      · simp [extCore, hr] at h
        exact ⟨acc, h.symm⟩
    · simp [extCore, hc] at h
      exact ih _ _ h

theorem extname_shape (s : String) :
    extname s = "" ∨ ∃ t, (extname s).data = '.' :: t := by
  unfold extname
  by_cases h2 : s = ".."
  · simp [h2]
  · simp only [h2, if_false]
    rcases hh : extCore [] s.data.reverse with _ | cs
    · simp
    · right
      obtain ⟨t, ht⟩ := extCore_shape _ _ _ hh
      exact ⟨t, by rw [ht]⟩

theorem extKeyOf_shape (f : String) :
    extKeyOf f = "" ∨ ∃ t, (extKeyOf f).data = '.' :: t := by
  unfold extKeyOf toLowerCase
  rcases extname_shape f with h | ⟨t, h⟩
  · left
    rw [h]
    rfl
  · right
    refine ⟨t.map Char.toLower, ?_⟩
    have hdot : Char.toLower '.' = '.' := by decide
    show (extname f).data.map Char.toLower = '.' :: t.map Char.toLower
    rw [h, List.map_cons, hdot]

theorem extKeyOf_head (f : String) (h : extKeyOf f ≠ "") :
    (extKeyOf f).data.head? = some '.' := by
  rcases extKeyOf_shape f with h' | ⟨t, h'⟩
  · exact absurd h' h
  · rw [h']
    rfl

theorem extKey_ne_sentinels (f : String) (h : extKeyOf f ≠ "") :
    extKeyOf f ≠ "directories" ∧ extKeyOf f ≠ "files" ∧ extKeyOf f ≠ "no-extension" := by
  have hh := extKeyOf_head f h
  refine ⟨?_, ?_, ?_⟩ <;> intro he <;> rw [he] at hh <;> exact absurd hh (by decide)

/-! ### Correctness of countFileTypes -/

theorem lookupCount_countStep (fs : FS) (dir : String) (m : Counts) (f k : String) :
    lookupCount (countStep fs dir m f) k =
      lookupCount m k + (if contributes fs dir k f then 1 else 0) := by
  rcases hs : fs.statFn (pathJoin dir f) with _ | st
  · simp [countStep, contributes, childStat, hs]
  · rcases hd : st.isDir with _ | _
    · -- file case
      by_cases he : extKeyOf f = ""
      · by_cases hk1 : k = "files"
        · subst hk1
          simp [countStep, contributes, childStat, hs, hd, he,
            lookupCount_bump_ne _ "no-extension" "files" (by decide),
            lookupCount_bump_self]
        · by_cases hk2 : k = "no-extension"
          · subst hk2
            simp [countStep, contributes, childStat, hs, hd, he, hk1,
              lookupCount_bump_self,
              lookupCount_bump_ne _ "files" "no-extension" (by decide)]
          · simp [countStep, contributes, childStat, hs, hd, he, hk1, hk2,
              lookupCount_bump_ne _ "no-extension" k hk2,
              lookupCount_bump_ne _ "files" k hk1]
      · have hne := extKey_ne_sentinels f he
        by_cases hk1 : k = "files"
        · subst hk1
          simp [countStep, contributes, childStat, hs, hd, he,
            lookupCount_bump_ne _ (extKeyOf f) "files" (Ne.symm hne.2.1),
            lookupCount_bump_self]
        · by_cases hk2 : k = extKeyOf f
          · rw [hk2]
            simp [countStep, contributes, childStat, hs, hd, he,
              (show extKeyOf f ≠ "files" from hne.2.1),
              lookupCount_bump_self,
              lookupCount_bump_ne _ "files" (extKeyOf f) hne.2.1]
          · simp [countStep, contributes, childStat, hs, hd, he, hk1, hk2,
              lookupCount_bump_ne _ (extKeyOf f) k hk2,
              lookupCount_bump_ne _ "files" k hk1]
    · -- directory case
      by_cases hk : k = "directories"
      · subst hk
        simp [countStep, contributes, childStat, hs, hd, lookupCount_bump_self]
      · simp [countStep, contributes, childStat, hs, hd, hk,
          lookupCount_bump_ne _ "directories" k hk]

theorem lookupCount_fold (fs : FS) (dir : String) (files : List String) :
    ∀ (m : Counts) (k : String),
      lookupCount (files.foldl (countStep fs dir) m) k =
        lookupCount m k + (files.filter (fun f => contributes fs dir k f)).length := by
  induction files with
  | nil => intro m k; simp
  | cons f rest ih =>
    intro m k
    simp only [List.foldl_cons, List.filter_cons]
    rw [ih, lookupCount_countStep]
    by_cases hc : contributes fs dir k f = true
    · simp only [hc, if_true, List.length_cons]
      omega
    · simp only [Bool.not_eq_true] at hc
      simp [hc]

theorem contributes_directories (fs : FS) (dir f : String) :
    contributes fs dir "directories" f = isDirChild fs dir f := by
  unfold contributes isDirChild
  rcases hs : childStat fs dir f with _ | st
  · rfl
  · dsimp only
    rcases hd : st.isDir with _ | _
    · simp only [if_false]
      rw [if_neg (by decide : ¬("directories" : String) = "files")]
      by_cases he : extKeyOf f = ""
      · rw [if_pos he]
        decide
      · rw [if_neg he]
        exact decide_eq_false (fun hh => (extKey_ne_sentinels f he).1 hh.symm)
    · simp

theorem contributes_files (fs : FS) (dir f : String) :
    contributes fs dir "files" f = isFileChild fs dir f := by
  unfold contributes isFileChild
  rcases hs : childStat fs dir f with _ | st
  · rfl
  · dsimp only
    rcases hd : st.isDir with _ | _
    · simp
    · simp only [if_true]
      decide

theorem contributes_ext (fs : FS) (dir f e : String) (he : e ≠ "")
    (h1 : e ≠ "directories") (h2 : e ≠ "files") (h3 : e ≠ "no-extension") :
    contributes fs dir e f = (isFileChild fs dir f && decide (extKeyOf f = e)) := by
  unfold contributes isFileChild
  rcases hs : childStat fs dir f with _ | st
  · rfl
  · dsimp only
    rcases hd : st.isDir with _ | _
    · simp only [Bool.false_eq_true, if_false, Bool.not_false, Bool.true_and]
      rw [if_neg h2]
      by_cases hext : extKeyOf f = ""
      · rw [if_pos hext, hext]
        rw [decide_eq_false h3, decide_eq_false (fun hh => he hh.symm)]
      · rw [if_neg hext]
        by_cases heq : extKeyOf f = e
        · rw [heq]
        · rw [decide_eq_false (fun hh => heq hh.symm), decide_eq_false heq]
    · simp [decide_eq_false h1]

theorem contributes_no_extension (fs : FS) (dir f : String) :
    contributes fs dir "no-extension" f =
      (isFileChild fs dir f && decide (extKeyOf f = "")) := by
  unfold contributes isFileChild
  rcases hs : childStat fs dir f with _ | st
  · rfl
  · dsimp only
    rcases hd : st.isDir with _ | _
    · simp only [Bool.false_eq_true, if_false, Bool.not_false, Bool.true_and]
      rw [if_neg (by decide : ¬("no-extension" : String) = "files")]
      by_cases hext : extKeyOf f = ""
      · rw [if_pos hext, hext]
        decide
      · rw [if_neg hext]
        rw [decide_eq_false (fun hh => (extKey_ne_sentinels f hext).2.2 hh.symm),
            decide_eq_false hext]
    · simp [decide_eq_false (by decide : ¬("no-extension" : String) = "directories")]

theorem countFileTypes_directories (fs : FS) (dir : String) (files : List String)
    (h : fs.readdir dir = some files) :
    lookupCount (countFileTypes fs dir) "directories" =
      (files.filter (isDirChild fs dir)).length := by
  simp only [countFileTypes, h]
  rw [lookupCount_fold]
  simp only [lookupCount]
  rw [List.filter_congr (fun f _ => contributes_directories fs dir f)]
  simp

theorem countFileTypes_files (fs : FS) (dir : String) (files : List String)
    (h : fs.readdir dir = some files) :
    lookupCount (countFileTypes fs dir) "files" =
      (files.filter (isFileChild fs dir)).length := by
  simp only [countFileTypes, h]
  rw [lookupCount_fold]
  simp only [lookupCount]
  rw [List.filter_congr (fun f _ => contributes_files fs dir f)]
  simp

theorem countFileTypes_ext (fs : FS) (dir : String) (files : List String) (e : String)
    (h : fs.readdir dir = some files) (he : e ≠ "") (h1 : e ≠ "directories")
    (h2 : e ≠ "files") (h3 : e ≠ "no-extension") :
    lookupCount (countFileTypes fs dir) e =
      (files.filter (fun f => isFileChild fs dir f && decide (extKeyOf f = e))).length := by
  simp only [countFileTypes, h]
  rw [lookupCount_fold]
  rw [List.filter_congr (fun f _ => contributes_ext fs dir f e he h1 h2 h3)]
  simp [lookupCount, Ne.symm h1, Ne.symm h2]

theorem countFileTypes_no_extension (fs : FS) (dir : String) (files : List String)
    (h : fs.readdir dir = some files) :
    lookupCount (countFileTypes fs dir) "no-extension" =
      (files.filter (fun f => isFileChild fs dir f && decide (extKeyOf f = ""))).length := by
  simp only [countFileTypes, h]
  rw [lookupCount_fold]
  rw [List.filter_congr (fun f _ => contributes_no_extension fs dir f)]
  simp [lookupCount, show ("directories" : String) ≠ "no-extension" by decide,
    show ("files" : String) ≠ "no-extension" by decide]

/-! ### Lemmas about the stable descending sort -/

theorem mem_insertByCountDesc (x a : String × Nat) (l : List (String × Nat)) :
    a ∈ insertByCountDesc x l ↔ a = x ∨ a ∈ l := by
  induction l with
  | nil => simp [insertByCountDesc]
  | cons y rest ih =>
    by_cases h : y.2 < x.2
    · simp [insertByCountDesc, h]
    · simp [insertByCountDesc, h, ih]
      tauto

theorem pairwise_insertByCountDesc (x : String × Nat) (l : List (String × Nat))
    (h : l.Pairwise (fun a b => b.2 ≤ a.2)) :
    (insertByCountDesc x l).Pairwise (fun a b => b.2 ≤ a.2) := by
  induction l with
  | nil => simp [insertByCountDesc]
  | cons y rest ih =>
    rw [List.pairwise_cons] at h
    obtain ⟨hy, hrest⟩ := h
    by_cases hc : y.2 < x.2
    · simp only [insertByCountDesc, if_pos hc]
      rw [List.pairwise_cons]
      refine ⟨?_, ?_⟩
      · intro b hb
        rcases List.mem_cons.mp hb with rfl | hb'
        · exact le_of_lt hc
        · exact le_trans (hy b hb') (le_of_lt hc)
      · rw [List.pairwise_cons]
        exact ⟨hy, hrest⟩
    · simp only [insertByCountDesc, if_neg hc]
      rw [List.pairwise_cons]
      refine ⟨?_, ih hrest⟩
      intro b hb
      rcases (mem_insertByCountDesc x b rest).mp hb with rfl | hb'
      · exact le_of_not_lt hc
      · exact hy b hb'

theorem filter_insertByCountDesc_eq (x : String × Nat) (l : List (String × Nat))
    (h : l.Pairwise (fun a b => b.2 ≤ a.2)) :
    (insertByCountDesc x l).filter (fun e => decide (e.2 = x.2)) =
      l.filter (fun e => decide (e.2 = x.2)) ++ [x] := by
  induction l with
  | nil => simp [insertByCountDesc]
  | cons y rest ih =>
    rw [List.pairwise_cons] at h
    obtain ⟨hy, hrest⟩ := h
    by_cases hc : y.2 < x.2
    · simp only [insertByCountDesc, if_pos hc]
      have hyne : ¬ (y.2 = x.2) := by omega
      have h1 : (y :: rest).filter (fun e => decide (e.2 = x.2)) = [] := by
        rw [List.filter_cons_of_neg (by simp [hyne])]
        rw [List.filter_eq_nil_iff]
        intro b hb
        have := hy b hb
        simp
        omega
      rw [List.filter_cons_of_pos (by simp), h1]
      rfl
    · simp only [insertByCountDesc, if_neg hc]
      by_cases hy2 : y.2 = x.2
      · rw [List.filter_cons_of_pos (by simp [hy2]), List.filter_cons_of_pos (by simp [hy2])]
        rw [ih hrest]
        rfl
      · rw [List.filter_cons_of_neg (by simp [hy2]), List.filter_cons_of_neg (by simp [hy2])]
        exact ih hrest

theorem filter_insertByCountDesc_ne (x : String × Nat) (l : List (String × Nat)) (c : Nat)
    (hc : ¬ (x.2 = c)) :
    (insertByCountDesc x l).filter (fun e => decide (e.2 = c)) =
      l.filter (fun e => decide (e.2 = c)) := by
  induction l with
  | nil => simp [insertByCountDesc, hc]
  | cons y rest ih =>
    by_cases h : y.2 < x.2
    · simp only [insertByCountDesc, if_pos h]
      rw [List.filter_cons_of_neg (by simp [hc])]
    · simp only [insertByCountDesc, if_neg h]
      by_cases hy : y.2 = c
      · rw [List.filter_cons_of_pos (by simp [hy]), List.filter_cons_of_pos (by simp [hy]), ih]
      · rw [List.filter_cons_of_neg (by simp [hy]), List.filter_cons_of_neg (by simp [hy]), ih]

theorem sortFold_mem (xs : List (String × Nat)) :
    ∀ (acc : List (String × Nat)) (a : String × Nat),
      a ∈ xs.foldl (fun acc x => insertByCountDesc x acc) acc ↔ a ∈ acc ∨ a ∈ xs := by
  induction xs with
  | nil => intro acc a; simp
  | cons x rest ih =>
    intro acc a
    simp only [List.foldl_cons]
    rw [ih, mem_insertByCountDesc]
    simp only [List.mem_cons]
    tauto

theorem sortFold_sorted_filter (xs : List (String × Nat)) :
    ∀ acc : List (String × Nat), acc.Pairwise (fun a b => b.2 ≤ a.2) →
      (xs.foldl (fun acc x => insertByCountDesc x acc) acc).Pairwise (fun a b => b.2 ≤ a.2) ∧
      ∀ c : Nat,
        (xs.foldl (fun acc x => insertByCountDesc x acc) acc).filter (fun e => decide (e.2 = c)) =
          acc.filter (fun e => decide (e.2 = c)) ++ xs.filter (fun e => decide (e.2 = c)) := by
  induction xs with
  | nil =>
    intro acc h
    exact ⟨h, fun c => by simp⟩
  | cons x rest ih =>
    intro acc h
    simp only [List.foldl_cons]
    obtain ⟨hs, hf⟩ := ih (insertByCountDesc x acc) (pairwise_insertByCountDesc x acc h)
    refine ⟨hs, fun c => ?_⟩
    rw [hf c]
    by_cases hc : x.2 = c
    · subst hc
      rw [filter_insertByCountDesc_eq x acc h]
      rw [List.filter_cons_of_pos (by simp)]
      simp [List.append_assoc]
    · rw [filter_insertByCountDesc_ne x acc c hc]
      rw [List.filter_cons_of_neg (by simp [hc])]

theorem sortByCountDesc_sorted (l : List (String × Nat)) :
    (sortByCountDesc l).Pairwise (fun a b => b.2 ≤ a.2) := by
  unfold sortByCountDesc
  exact (sortFold_sorted_filter l [] (by simp)).1

theorem sortByCountDesc_filter (l : List (String × Nat)) (c : Nat) :
    (sortByCountDesc l).filter (fun e => decide (e.2 = c)) =
      l.filter (fun e => decide (e.2 = c)) := by
  unfold sortByCountDesc
  have h := (sortFold_sorted_filter l [] (by simp)).2 c
  simpa using h

theorem mem_sortByCountDesc (l : List (String × Nat)) (a : String × Nat) :
    a ∈ sortByCountDesc l ↔ a ∈ l := by
  unfold sortByCountDesc
  have h := sortFold_mem l [] a
  simpa using h

theorem topExtensions_length (counts : Counts) : (topExtensions counts).length ≤ 3 := by
  unfold topExtensions
  exact List.length_take_le 3 _

theorem topExtensions_sorted (counts : Counts) :
    (topExtensions counts).Pairwise (fun a b => b.2 ≤ a.2) := by
  unfold topExtensions
  exact (sortByCountDesc_sorted _).sublist (List.take_sublist 3 _)

theorem topExtensions_mem (counts : Counts) (e : String × Nat)
    (h : e ∈ topExtensions counts) : e ∈ extensionEntries counts := by
  unfold topExtensions at h
  exact (mem_sortByCountDesc _ e).mp (List.mem_of_mem_take h)

theorem topExtensions_dominates (counts : Counts) :
    ∀ a ∈ topExtensions counts,
      ∀ b ∈ (sortByCountDesc (extensionEntries counts)).drop 3, b.2 ≤ a.2 := by
  intro a ha b hb
  unfold topExtensions at ha
  have hs := sortByCountDesc_sorted (extensionEntries counts)
  rw [← List.take_append_drop 3 (sortByCountDesc (extensionEntries counts))] at hs
  exact (List.pairwise_append.mp hs).2.2 a ha b hb

/-! ### Miscellaneous string and fold helpers -/

theorem length_mk (l : List Char) : (String.mk l).length = l.length := rfl

theorem data_append (s t : String) : (s ++ t).data = s.data ++ t.data := rfl

theorem jsStartsWith_ne_head (pre s : String) (c d : Char) (h1 : pre.data.head? = some c)
    (h2 : s.data.head? = some d) (hne : c ≠ d) : jsStartsWith s pre = false := by
  unfold jsStartsWith
  rcases hp : pre.data with _ | ⟨c2, l1⟩
  · rw [hp] at h1; simp at h1
  · rcases hs : s.data with _ | ⟨d2, l2⟩
    · rw [hs] at h2; simp at h2
    · rw [hp] at h1
      rw [hs] at h2
      simp at h1 h2
      subst h1
      subst h2
      simp [List.isPrefixOf, beq_iff_eq]
      intro hcd
      exact absurd hcd hne

theorem sizeStep_fold (fs : FS) (dir : String) (files : List String) :
    ∀ acc : Nat, files.foldl (sizeStep fs dir) acc =
      acc + (files.map (fun f => ((fs.statFn (pathJoin dir f)).map Stats.size).getD 0)).sum := by
  induction files with
  | nil => intro acc; simp
  | cons f rest ih =>
    intro acc
    simp only [List.foldl_cons, List.map_cons, List.sum_cons]
    rw [ih]
    have hstep : sizeStep fs dir acc f =
        acc + ((fs.statFn (pathJoin dir f)).map Stats.size).getD 0 := by
      unfold sizeStep
      rcases hs : fs.statFn (pathJoin dir f) with _ | st
      · simp
      · rcases st.isDir with _ | _ <;> simp
    rw [hstep]
    omega

theorem filter_dir_add_file (fs : FS) (dir : String) (files : List String) :
    (files.filter (isDirChild fs dir)).length + (files.filter (isFileChild fs dir)).length =
      (files.filter (fun f => (childStat fs dir f).isSome)).length := by
  induction files with
  | nil => rfl
  | cons f rest ih =>
    simp only [List.filter_cons]
    rcases hs : childStat fs dir f with _ | st
    · simp [isDirChild, isFileChild, hs, ih]
    · rcases hd : st.isDir with _ | _
      · simp only [isDirChild, isFileChild, hs, hd, Option.isSome_some, Bool.not_false,
          if_true, List.length_cons]
        simp only [Bool.false_eq_true, if_false]
        omega
      · simp only [isDirChild, isFileChild, hs, hd, Option.isSome_some, Bool.not_true,
          if_true, List.length_cons]
        simp only [Bool.false_eq_true, if_false]
        omega

/-! ### Claim theorems -/

/-- C1: for every path whose stat call fails, the row list produced with
that path as current selection is exactly one row with the generic error
label "Error reading file information"; `getChildren` is total, so nothing
propagates to the caller. -/
theorem c1_stat_failure_single_error_row (fs : FS) (root : Option String) (n : Nat)
    (sel : String) (h : fs.statFn sel = none) :
    getChildren fs ⟨root, some sel, n⟩ none =
      [mkDirectoryItem "Error reading file information" none none] := by
  simp [getChildren, selectionRows, h]

/-- Witness for C1 at the missing path "/missing". -/
theorem c1_witness :
    exampleFS.statFn "/missing" = none ∧
    getChildren exampleFS ⟨some "/d", some "/missing", 0⟩ none =
      [mkDirectoryItem "Error reading file information" none none] :=
  ⟨rfl, c1_stat_failure_single_error_row exampleFS (some "/d") 0 "/missing" rfl⟩

/-- C4: `formatSize` renders bytes below 1024 as "<n> bytes", and
one-decimal KB/MB/GB strings on the 1024-based ranges
[2^10, 2^20), [2^20, 2^30), [2^30, ∞). -/
theorem c4_formatSize_thresholds (b : Nat) :
    (b < 1024 → formatSize b = toString b ++ " bytes") ∧
    (1024 ≤ b → b < 1048576 →
      ∃ i d : Nat, d < 10 ∧ formatSize b = toString i ++ "." ++ toString d ++ " KB") ∧
    (1048576 ≤ b → b < 1073741824 →
      ∃ i d : Nat, d < 10 ∧ formatSize b = toString i ++ "." ++ toString d ++ " MB") ∧
    (1073741824 ≤ b →
      ∃ i d : Nat, d < 10 ∧ formatSize b = toString i ++ "." ++ toString d ++ " GB") := by
  refine ⟨?_, ?_, ?_, ?_⟩
  · intro h
    simp [formatSize, h]
  · intro h1 h2
    refine ⟨(10 * b + 1024 / 2) / 1024 / 10, (10 * b + 1024 / 2) / 1024 % 10,
      Nat.mod_lt _ (by norm_num), ?_⟩
    simp only [formatSize, toFixed1]
    rw [if_neg (by omega), if_pos (by omega)]
  · intro h1 h2
    refine ⟨(10 * b + 1024 * 1024 / 2) / (1024 * 1024) / 10,
      (10 * b + 1024 * 1024 / 2) / (1024 * 1024) % 10, Nat.mod_lt _ (by norm_num), ?_⟩
    simp only [formatSize, toFixed1]
    rw [if_neg (by omega), if_neg (by omega), if_pos (by omega)]
  · intro h1
    refine ⟨(10 * b + 1024 * 1024 * 1024 / 2) / (1024 * 1024 * 1024) / 10,
      (10 * b + 1024 * 1024 * 1024 / 2) / (1024 * 1024 * 1024) % 10,
      Nat.mod_lt _ (by norm_num), ?_⟩
    simp only [formatSize, toFixed1]
    rw [if_neg (by omega), if_neg (by omega), if_neg (by omega)]

/-- Witness for C4: one concrete byte count in each of the four ranges,
together with the concrete rendered strings. -/
theorem c4_witness :
    (formatSize 512 = toString 512 ++ " bytes") ∧
    (∃ i d : Nat, d < 10 ∧ formatSize 1536 = toString i ++ "." ++ toString d ++ " KB") ∧
    (∃ i d : Nat, d < 10 ∧ formatSize 1572864 = toString i ++ "." ++ toString d ++ " MB") ∧
    (∃ i d : Nat, d < 10 ∧ formatSize 1610612736 = toString i ++ "." ++ toString d ++ " GB") ∧
    formatSize 512 = "512 bytes" ∧ formatSize 1536 = "1.5 KB" ∧
    formatSize 1572864 = "1.5 MB" ∧ formatSize 1610612736 = "1.5 GB" :=
  ⟨(c4_formatSize_thresholds 512).1 (by decide),
   (c4_formatSize_thresholds 1536).2.1 (by decide) (by decide),
   (c4_formatSize_thresholds 1572864).2.2.1 (by decide) (by decide),
   (c4_formatSize_thresholds 1610612736).2.2.2 (by decide),
   by decide, by decide, by decide, by decide⟩

/-- C5: `formatPath` leaves paths of length at most 40 unchanged; a longer
path becomes first 17 characters, "...", last 17 characters, of total
length 17 + 3 + 17. -/
theorem c5_formatPath (p : String) :
    (p.length ≤ 40 → formatPath p = p) ∧
    (p.length > 40 →
      (formatPath p).length = 17 + 3 + 17 ∧
      formatPath p = String.mk (p.data.take 17) ++ "..." ++
        String.mk (p.data.drop (p.length - 17))) := by
  refine ⟨fun h => by simp [formatPath, h], fun h => ?_⟩
  have hn : ¬ p.length ≤ 40 := by omega
  have hl : 40 < p.data.length := h
  refine ⟨?_, by simp only [formatPath, if_neg hn]⟩
  simp only [formatPath, if_neg hn]
  rw [String.length_append, String.length_append]
  show (List.take 17 p.data).length + 3 + (List.drop (p.length - 17) p.data).length = 17 + 3 + 17
  rw [List.length_take, List.length_drop]
  have hplen : p.length = p.data.length := rfl
  rw [hplen]
  omega

/-- Witness for C5: a short path returned unchanged, and a 41-character
path truncated to the expected 37-character middle-ellipsis form. -/
theorem c5_witness :
    formatPath "abc" = "abc" ∧
    (formatPath "a123456789b123456789c123456789d123456789x").length = 17 + 3 + 17 ∧
    formatPath "a123456789b123456789c123456789d123456789x" =
      String.mk ("a123456789b123456789c123456789d123456789x".data.take 17) ++ "..." ++
        String.mk ("a123456789b123456789c123456789d123456789x".data.drop
          ("a123456789b123456789c123456789d123456789x".length - 17)) ∧
    formatPath "a123456789b123456789c123456789d123456789x" =
      "a123456789b123456...456789d123456789x" :=
  ⟨(c5_formatPath "abc").1 (by decide),
   ((c5_formatPath "a123456789b123456789c123456789d123456789x").2 (by decide)).1,
   ((c5_formatPath "a123456789b123456789c123456789d123456789x").2 (by decide)).2,
   by decide⟩

/-- C6: `refresh(pathA)` then `refresh(pathB)` leaves the tracker exactly
in `HasSelection(pathB)`, the resulting provider being independent of
`pathA`; `refresh()` with no argument always yields `NoSelection`. -/
theorem c6_refresh_overwrites (p : SelectedItemProvider) (pathA pathB : String) :
    selectionState (refresh (refresh p (some pathA)) (some pathB)) =
      TrackerState.hasSelection pathB ∧
    (∀ pathA2 : String,
      refresh (refresh p (some pathA)) (some pathB) =
        refresh (refresh p (some pathA2)) (some pathB)) ∧
    (∀ q : SelectedItemProvider, selectionState (refresh q none) = TrackerState.noSelection) :=
  ⟨rfl, fun _ => rfl, fun _ => rfl⟩

/-- C7: for a readable directory, `calculateDirSize` is the sum of the raw
stat sizes of the immediate children (directory entries included at their
own metadata size, no recursion); a child whose stat fails contributes
0. -/
theorem c7_calculateDirSize (fs : FS) (dir : String) (files : List String)
    (h : fs.readdir dir = some files) :
    calculateDirSize fs dir =
      (files.map (fun f => ((fs.statFn (pathJoin dir f)).map Stats.size).getD 0)).sum := by
  simp only [calculateDirSize, h]
  rw [sizeStep_fold]
  omega

/-- Witness for C7 on the example directory: 100 + 200 + 50 + 96 = 446,
with the subdirectory contributing its own entry size 96. -/
theorem c7_witness :
    exampleFS.readdir "/d" = some ["a.txt", "b.txt", "c.md", "sub"] ∧
    calculateDirSize exampleFS "/d" =
      ((["a.txt", "b.txt", "c.md", "sub"]).map
        (fun f => ((exampleFS.statFn (pathJoin "/d" f)).map Stats.size).getD 0)).sum ∧
    calculateDirSize exampleFS "/d" = 446 :=
  ⟨rfl, c7_calculateDirSize exampleFS "/d" ["a.txt", "b.txt", "c.md", "sub"] rfl, by decide⟩

/-- C9: the clipboard heuristic refreshes the selection exactly when the
text is path-like (non-empty, starting with "/" or containing ":/") and
exists on disk; otherwise the provider state is unchanged (hence no new
rows); "hello world" is never path-like. -/
theorem c9_clipboard_heuristic (fs : FS) (p : SelectedItemProvider) (text : String) :
    (isPathLike text = false → clipboardHeuristic fs p text = p) ∧
    (isPathLike text = true → existsSync fs text = true →
      clipboardHeuristic fs p text = refresh p (some text)) ∧
    (existsSync fs text = false → clipboardHeuristic fs p text = p) ∧
    isPathLike "hello world" = false := by
  refine ⟨?_, ?_, ?_, by decide⟩
  · intro h
    simp [clipboardHeuristic, h]
  · intro h1 h2
    simp [clipboardHeuristic, h1, h2]
  · intro h
    by_cases hp : isPathLike text = true
    · simp [clipboardHeuristic, hp, h]
    · simp only [Bool.not_eq_true] at hp
      simp [clipboardHeuristic, hp]

/-- Witness for C9: "/tmp/foo" exists in the example snapshot and triggers
a refresh onto it; "hello world" leaves the provider untouched. -/
theorem c9_witness :
    isPathLike "/tmp/foo" = true ∧ existsSync exampleFS "/tmp/foo" = true ∧
    clipboardHeuristic exampleFS ⟨some "/d", none, 0⟩ "/tmp/foo" =
      refresh ⟨some "/d", none, 0⟩ (some "/tmp/foo") ∧
    clipboardHeuristic exampleFS ⟨some "/d", none, 0⟩ "hello world" = ⟨some "/d", none, 0⟩ :=
  ⟨by decide, by decide,
   (c9_clipboard_heuristic exampleFS ⟨some "/d", none, 0⟩ "/tmp/foo").2.1 (by decide) (by decide),
   (c9_clipboard_heuristic exampleFS ⟨some "/d", none, 0⟩ "hello world").1 (by decide)⟩

/-- C10: when a directory's own stat succeeds but its listing cannot be
read, `calculateDirSize` returns 0 rather than signaling an error, and the
row list still contains the plain "Size (approx): 0 bytes" row (the
listing failure surfaces only as the separate directory-contents error
row). -/
theorem c10_unreadable_listing (fs : FS) (root : Option String) (n : Nat) (sel : String)
    (st : Stats) (hstat : fs.statFn sel = some st) (hdir : st.isDir = true)
    (hrd : fs.readdir sel = none) :
    calculateDirSize fs sel = 0 ∧
    getChildren fs ⟨root, some sel, n⟩ none =
      [mkDirectoryItem ("Directory: " ++ basename sel) (some sel) (some "directory"),
       mkDirectoryItem ("Created: " ++ st.birthtime) none none,
       mkDirectoryItem ("Modified: " ++ st.mtime) none none,
       mkDirectoryItem ("Permissions: " ++ octalString (st.mode % 512)) none none,
       mkDirectoryItem "Size (approx): 0 bytes" none none,
       mkDirectoryItem "Error reading directory contents" none none] := by
  have h0 : calculateDirSize fs sel = 0 := by simp [calculateDirSize, hrd]
  refine ⟨h0, ?_⟩
  have hsize : "Size (approx): " ++ formatSize (calculateDirSize fs sel) =
      "Size (approx): 0 bytes" := by
    rw [h0]
    decide
  simp [getChildren, selectionRows, dirTypeRows, hstat, hdir, hrd, hsize]

/-- Witness for C10 at the unreadable directory "/locked". -/
theorem c10_witness :
    exampleFS.statFn "/locked" = some ⟨true, 64, 448, "c6", "m6"⟩ ∧
    calculateDirSize exampleFS "/locked" = 0 ∧
    getChildren exampleFS ⟨some "/d", some "/locked", 0⟩ none =
      [mkDirectoryItem ("Directory: " ++ basename "/locked") (some "/locked") (some "directory"),
       mkDirectoryItem ("Created: " ++ "c6") none none,
       mkDirectoryItem ("Modified: " ++ "m6") none none,
       mkDirectoryItem ("Permissions: " ++ octalString (448 % 512)) none none,
       mkDirectoryItem "Size (approx): 0 bytes" none none,
       mkDirectoryItem "Error reading directory contents" none none] :=
  ⟨rfl,
   (c10_unreadable_listing exampleFS (some "/d") 0 "/locked" ⟨true, 64, 448, "c6", "m6"⟩
     rfl rfl rfl).1,
   (c10_unreadable_listing exampleFS (some "/d") 0 "/locked" ⟨true, 64, 448, "c6", "m6"⟩
     rfl rfl rfl).2⟩

theorem mem_ite_singleton {α : Type} (c : Prop) [Decidable c] (r a : α)
    (h : a ∈ (if c then [r] else [])) : a = r := by
  split at h
  · simpa using h
  · simp at h

/-- C2: for a readable directory, `countFileTypes` counts exactly the
stat-successful children: "directories" is the number of directory
children, "files" the number of non-directory children, "no-extension"
holds exactly the files whose extension key is empty, every non-sentinel
bucket holds the files with that lower-cased extension key, and the two
class counts add up to the stat-successful children — so a child whose
stat fails lands in no bucket. -/
theorem c2_countFileTypes_buckets (fs : FS) (dir : String) (files : List String)
    (h : fs.readdir dir = some files) :
    lookupCount (countFileTypes fs dir) "directories" =
      (files.filter (isDirChild fs dir)).length ∧
    lookupCount (countFileTypes fs dir) "files" =
      (files.filter (isFileChild fs dir)).length ∧
    lookupCount (countFileTypes fs dir) "no-extension" =
      (files.filter (fun f => isFileChild fs dir f && decide (extKeyOf f = ""))).length ∧
    (∀ e : String, e ≠ "" → e ≠ "directories" → e ≠ "files" → e ≠ "no-extension" →
      lookupCount (countFileTypes fs dir) e =
        (files.filter (fun f => isFileChild fs dir f && decide (extKeyOf f = e))).length) ∧
    (files.filter (isDirChild fs dir)).length + (files.filter (isFileChild fs dir)).length =
      (files.filter (fun f => (childStat fs dir f).isSome)).length :=
  ⟨countFileTypes_directories fs dir files h, countFileTypes_files fs dir files h,
   countFileTypes_no_extension fs dir files h,
   fun e he h1 h2 h3 => countFileTypes_ext fs dir files e h he h1 h2 h3,
   filter_dir_add_file fs dir files⟩

/-- Witness for C2 on the example directories {a.txt, b.txt, c.md, sub}
and {README, x.txt}: the extensionless README lands in "no-extension". -/
theorem c2_witness :
    exampleFS.readdir "/d" = some ["a.txt", "b.txt", "c.md", "sub"] ∧
    exampleFS.readdir "/e" = some ["README", "x.txt"] ∧
    lookupCount (countFileTypes exampleFS "/d") ".txt" =
      ((["a.txt", "b.txt", "c.md", "sub"]).filter
        (fun f => isFileChild exampleFS "/d" f && decide (extKeyOf f = ".txt"))).length ∧
    lookupCount (countFileTypes exampleFS "/e") "no-extension" =
      ((["README", "x.txt"]).filter
        (fun f => isFileChild exampleFS "/e" f && decide (extKeyOf f = ""))).length ∧
    lookupCount (countFileTypes exampleFS "/d") "directories" = 1 ∧
    lookupCount (countFileTypes exampleFS "/d") "files" = 3 ∧
    lookupCount (countFileTypes exampleFS "/d") ".txt" = 2 ∧
    lookupCount (countFileTypes exampleFS "/d") ".md" = 1 ∧
    lookupCount (countFileTypes exampleFS "/d") "no-extension" = 0 ∧
    lookupCount (countFileTypes exampleFS "/e") "no-extension" = 1 ∧
    lookupCount (countFileTypes exampleFS "/e") "files" = 2 :=
  ⟨rfl, rfl,
   (c2_countFileTypes_buckets exampleFS "/d" ["a.txt", "b.txt", "c.md", "sub"] rfl).2.2.2.1
     ".txt" (by decide) (by decide) (by decide) (by decide),
   (c2_countFileTypes_buckets exampleFS "/e" ["README", "x.txt"] rfl).2.2.1,
   by decide, by decide, by decide, by decide, by decide, by decide, by decide⟩

/-- C3: for a readable directory selection, the "Common types" data is the
take-3 prefix of the extension entries sorted descending by count, so it
holds the 3 most frequent extensions: the whole sorted list is descending
and a permutation of the entries (membership both ways), every excluded
entry (the drop-3 rest) has a count at most that of every included one,
ties are kept in first-seen order (the filter over any fixed count value
is preserved verbatim, which pins the stable order), and the row rendered
as "<ext-without-dot>: <count>" joined with ", " appears in the row list
whenever there is at least one extension entry. -/
theorem c3_common_types (fs : FS) (root : Option String) (n : Nat) (sel : String)
    (st : Stats) (files : List String) (hstat : fs.statFn sel = some st)
    (hdir : st.isDir = true) (hrd : fs.readdir sel = some files) :
    (topExtensions (countFileTypes fs sel)).length ≤ 3 ∧
    (topExtensions (countFileTypes fs sel)).Pairwise (fun a b => b.2 ≤ a.2) ∧
    (sortByCountDesc (extensionEntries (countFileTypes fs sel))).Pairwise
      (fun a b => b.2 ≤ a.2) ∧
    (∀ e ∈ topExtensions (countFileTypes fs sel), e ∈ extensionEntries (countFileTypes fs sel)) ∧
    (∀ a : String × Nat,
      a ∈ sortByCountDesc (extensionEntries (countFileTypes fs sel)) ↔
        a ∈ extensionEntries (countFileTypes fs sel)) ∧
    (∀ a ∈ topExtensions (countFileTypes fs sel),
      ∀ b ∈ (sortByCountDesc (extensionEntries (countFileTypes fs sel))).drop 3, b.2 ≤ a.2) ∧
    (∀ c : Nat,
      (sortByCountDesc (extensionEntries (countFileTypes fs sel))).filter
          (fun e => decide (e.2 = c)) =
        (extensionEntries (countFileTypes fs sel)).filter (fun e => decide (e.2 = c))) ∧
    (topExtensions (countFileTypes fs sel) ≠ [] →
      mkDirectoryItem ("Common types: " ++
        String.intercalate ", " ((topExtensions (countFileTypes fs sel)).map
          (fun e => substring1 e.1 ++ ": " ++ toString e.2))) none none ∈
        getChildren fs ⟨root, some sel, n⟩ none) := by
  refine ⟨topExtensions_length _, topExtensions_sorted _, sortByCountDesc_sorted _,
    fun e he => topExtensions_mem _ e he, fun a => mem_sortByCountDesc _ a,
    topExtensions_dominates _, fun c => sortByCountDesc_filter _ c, ?_⟩
  intro hne
  have hlen : 0 < (topExtensions (countFileTypes fs sel)).length := List.length_pos.mpr hne
  simp only [getChildren, selectionRows, hstat, hdir, Bool.not_true, Bool.false_eq_true,
    if_false]
  refine List.mem_cons_of_mem _ (List.mem_cons_of_mem _ (List.mem_cons_of_mem _
    (List.mem_cons_of_mem _ (List.mem_cons_of_mem _ ?_))))
  simp only [dirTypeRows, hrd]
  refine List.mem_cons_of_mem _ ?_
  refine List.mem_append_right _ ?_
  rw [if_pos hlen]
  simp [extensionSummary]

/-- Witness for C3 on {a.txt, b.txt, c.md, sub}: files=3, directories=1,
top extensions [.txt ↦ 2, .md ↦ 1], row "Common types: txt: 2, md: 1". -/
theorem c3_witness :
    exampleFS.statFn "/d" = some ⟨true, 128, 493, "c0", "m0"⟩ ∧
    exampleFS.readdir "/d" = some ["a.txt", "b.txt", "c.md", "sub"] ∧
    topExtensions (countFileTypes exampleFS "/d") = [(".txt", 2), (".md", 1)] ∧
    mkDirectoryItem ("Common types: " ++
      String.intercalate ", " ((topExtensions (countFileTypes exampleFS "/d")).map
        (fun e => substring1 e.1 ++ ": " ++ toString e.2))) none none ∈
      getChildren exampleFS ⟨some "/d", some "/d", 0⟩ none ∧
    "Common types: " ++ String.intercalate ", "
        ((topExtensions (countFileTypes exampleFS "/d")).map
          (fun e => substring1 e.1 ++ ": " ++ toString e.2)) =
      "Common types: txt: 2, md: 1" ∧
    lookupCount (countFileTypes exampleFS "/d") "files" = 3 ∧
    lookupCount (countFileTypes exampleFS "/d") "directories" = 1 :=
  ⟨rfl, rfl, by decide,
   (c3_common_types exampleFS (some "/d") 0 "/d" ⟨true, 128, 493, "c0", "m0"⟩
     ["a.txt", "b.txt", "c.md", "sub"] rfl rfl rfl).2.2.2.2.2.2.2 (by decide),
   by decide, by decide, by decide⟩

/-- C8: with no selection held, a known workspace root yields its identity
row, its item count, and its directory/file counts (each only when
positive, counted by the same extension-counting logic), and no row starts
with "Common types: "; with no root either, the row list is exactly the
"No workspace or selection" placeholder. -/
theorem c8_no_selection_rows (fs : FS) (root : String) (n : Nat) (files : List String)
    (h : fs.readdir root = some files) :
    getChildren fs ⟨some root, none, n⟩ none =
      mkDirectoryItem ("Workspace: " ++ basename root) (some root) (some "directory") ::
      mkDirectoryItem ("Root contains: " ++ toString files.length ++ " items") none none ::
      ((if 0 < (files.filter (isDirChild fs root)).length then
          [mkDirectoryItem ("Subdirectories: " ++
            toString (files.filter (isDirChild fs root)).length) none none]
        else []) ++
       (if 0 < (files.filter (isFileChild fs root)).length then
          [mkDirectoryItem ("Files: " ++
            toString (files.filter (isFileChild fs root)).length) none none]
        else [])) ∧
    (∀ it ∈ getChildren fs ⟨some root, none, n⟩ none,
      jsStartsWith it.label "Common types: " = false) ∧
    (∀ (fs2 : FS) (n2 : Nat), getChildren fs2 ⟨none, none, n2⟩ none =
      [mkDirectoryItem "No workspace or selection" none none]) := by
  have heq : getChildren fs ⟨some root, none, n⟩ none =
      mkDirectoryItem ("Workspace: " ++ basename root) (some root) (some "directory") ::
      mkDirectoryItem ("Root contains: " ++ toString files.length ++ " items") none none ::
      ((if 0 < (files.filter (isDirChild fs root)).length then
          [mkDirectoryItem ("Subdirectories: " ++
            toString (files.filter (isDirChild fs root)).length) none none]
        else []) ++
       (if 0 < (files.filter (isFileChild fs root)).length then
          [mkDirectoryItem ("Files: " ++
            toString (files.filter (isFileChild fs root)).length) none none]
        else [])) := by
    simp only [getChildren, workspaceRows, h]
    rw [countFileTypes_directories fs root files h, countFileTypes_files fs root files h]
  refine ⟨heq, ?_, fun fs2 n2 => rfl⟩
  intro it hit
  rw [heq] at hit
  simp only [List.mem_cons, List.mem_append] at hit
  rcases hit with rfl | rfl | hit' | hit'
  · exact jsStartsWith_ne_head _ _ 'C' 'W' rfl rfl (by decide)
  · exact jsStartsWith_ne_head _ _ 'C' 'R' rfl rfl (by decide)
  · rw [mem_ite_singleton _ _ _ hit']
    exact jsStartsWith_ne_head _ _ 'C' 'S' rfl rfl (by decide)
  · rw [mem_ite_singleton _ _ _ hit']
    exact jsStartsWith_ne_head _ _ 'C' 'F' rfl rfl (by decide)

/-- Witness for C8 on the example workspace root "/d" (1 subdirectory,
3 files), and the no-root placeholder. -/
theorem c8_witness :
    exampleFS.readdir "/d" = some ["a.txt", "b.txt", "c.md", "sub"] ∧
    getChildren exampleFS ⟨some "/d", none, 0⟩ none =
      mkDirectoryItem ("Workspace: " ++ basename "/d") (some "/d") (some "directory") ::
      mkDirectoryItem ("Root contains: " ++ toString
        (["a.txt", "b.txt", "c.md", "sub"] : List String).length ++ " items") none none ::
      ((if 0 < ((["a.txt", "b.txt", "c.md", "sub"] : List String).filter
            (isDirChild exampleFS "/d")).length then
          [mkDirectoryItem ("Subdirectories: " ++ toString
            ((["a.txt", "b.txt", "c.md", "sub"] : List String).filter
              (isDirChild exampleFS "/d")).length) none none]
        else []) ++
       (if 0 < ((["a.txt", "b.txt", "c.md", "sub"] : List String).filter
            (isFileChild exampleFS "/d")).length then
          [mkDirectoryItem ("Files: " ++ toString
            ((["a.txt", "b.txt", "c.md", "sub"] : List String).filter
              (isFileChild exampleFS "/d")).length) none none]
        else [])) ∧
    (getChildren exampleFS ⟨some "/d", none, 0⟩ none).map DirectoryItem.label =
      ["Workspace: d", "Root contains: 4 items", "Subdirectories: 1", "Files: 3"] :=
  ⟨rfl,
   (c8_no_selection_rows exampleFS "/d" 0 ["a.txt", "b.txt", "c.md", "sub"] rfl).1,
   by decide⟩

end CodeLens
